import Mathlib

/-!
Shallow embedding of `src/app/app.py` (Rule 303 & 304 scanner).

The source text of a unit is modeled as a `List Char`.  Offsets are `Nat`
indices into that list, matching Python string offsets for the ASCII inputs
the scanner processes.

The two compiled regexes of the source,

  SET_EXT_CHECK_RE = re.compile(r"\bSET\s+EXTENDED\s+CHECK\b", re.IGNORECASE)
  BREAKPOINT_RE    = re.compile(r"\bBREAK-POINT\b(?:\s+\w+)?", re.IGNORECASE)

are embedded as positional matchers `cs → i → Option Nat`: at start offset
`i` they return `some e` (the end offset of the match) exactly when the
regex matches at `i`, and `none` otherwise.  Both patterns are
backtracking-free in the relevant sense: `\s+` is followed by a non-space
literal and `\w+` is final in its group, so the greedy maximal-run reading
is the unique one, and the matchers below compute it directly.
`re.finditer` (leftmost, non-overlapping scan) is embedded as `finditer`.

Character classes `\w` and `\s` are modeled by their ASCII parts
(`[A-Za-z0-9_]` and `[ \t\n\r\v\f]`); Python's `str` patterns additionally
accept non-ASCII word/space characters, which the ABAP sources this service
scans do not contain.
-/

namespace DbRule

/-- ASCII model of Python's `\w`: letters, digits, underscore. -/
def isWordChar (c : Char) : Bool :=
  c.isAlphanum || c = '_'

/-- ASCII model of Python's `\s`: space, tab, newline, carriage return,
vertical tab, form feed. -/
def isSpaceChar (c : Char) : Bool :=
  c = ' ' || c = '\t' || c = '\n' || c = '\r' || c = '\x0b' || c = '\x0c'

/-- Whether the character at offset `j` exists and is a word character
(positions outside the text count as non-word, as in Python `\b`). -/
def isWordAt (cs : List Char) (j : Nat) : Bool :=
  match cs.get? j with
  | some c => isWordChar c
  | none => false

/-- Python's `\b` at offset `i`: the word-ness of the character before `i`
(non-word at the start of the text) differs from the word-ness of the
character at `i` (non-word at the end of the text). -/
def boundaryAt (cs : List Char) (i : Nat) : Bool :=
  (if i = 0 then false else isWordAt cs (i - 1)) != isWordAt cs i

/-- Length of the maximal run of `\s` characters starting at offset `i`. -/
def spaceRun (cs : List Char) (i : Nat) : Nat :=
  ((cs.drop i).takeWhile isSpaceChar).length

/-- Length of the maximal run of `\w` characters starting at offset `i`. -/
def wordRun (cs : List Char) (i : Nat) : Nat :=
  ((cs.drop i).takeWhile isWordChar).length

/-- Case-insensitive literal match: succeeds iff the text at offset `i`
continues with `lit` (given in lowercase), comparing lowercased characters,
and returns the offset just past the literal (Python `re.IGNORECASE` on the
ASCII literals of the two rules). -/
def matchLit (cs : List Char) (i : Nat) (lit : List Char) : Option Nat :=
  if ((cs.drop i).take lit.length).map Char.toLower = lit then
    some (i + lit.length)
  else
    none

/-- The regex `\bSET\s+EXTENDED\s+CHECK\b` (IGNORECASE) of the source,
as a positional matcher: `some e` iff the pattern matches at offset `i`
with end offset `e`.  `\s+` is followed by a non-space character in the
pattern, so it always matches the maximal space run (length ≥ 1). -/
def SET_EXT_CHECK_RE (cs : List Char) (i : Nat) : Option Nat :=
  if boundaryAt cs i then
    match matchLit cs i ['s', 'e', 't'] with
    | some j1 =>
      let r1 := spaceRun cs j1
      if r1 = 0 then none else
        match matchLit cs (j1 + r1) ['e', 'x', 't', 'e', 'n', 'd', 'e', 'd'] with
        | some j2 =>
          let r2 := spaceRun cs j2
          if r2 = 0 then none else
            match matchLit cs (j2 + r2) ['c', 'h', 'e', 'c', 'k'] with
            | some j3 => if boundaryAt cs j3 then some j3 else none
            | none => none
        | none => none
    | none => none
  else
    none

/-- The regex `\bBREAK-POINT\b(?:\s+\w+)?` (IGNORECASE) of the source, as a
positional matcher.  The optional group is greedy: when the keyword is
followed by at least one space character and then at least one word
character, the match extends over the maximal space run and the maximal
word run; otherwise the group matches empty. -/
def BREAKPOINT_RE (cs : List Char) (i : Nat) : Option Nat :=
  if boundaryAt cs i then
    match matchLit cs i ['b', 'r', 'e', 'a', 'k', '-', 'p', 'o', 'i', 'n', 't'] with
    | some j =>
      if boundaryAt cs j then
        let r := spaceRun cs j
        if r = 0 then some j
        else
          let w := wordRun cs (j + r)
          if w = 0 then some j else some (j + r + w)
      else none
    | none => none
  else
    none

/-- One step of `re.finditer`: starting from offset `i`, try the matcher at
each offset in turn; on a match `(i, e)` resume the scan at `e` (matches of
both rules always have positive length, so `max e (i+1)` equals `e`).
`fuel` is an upper bound on the number of offsets still to try;
`finditer` supplies enough fuel to cover the whole text. -/
def fiGo (m : List Char → Nat → Option Nat) (cs : List Char) :
    Nat → Nat → List (Nat × Nat)
  | 0, _ => []
  | fuel + 1, i =>
    if i < cs.length + 1 then
      match m cs i with
      | some e => (i, e) :: fiGo m cs fuel (max e (i + 1))
      | none => fiGo m cs fuel (i + 1)
    else []

/-- Python `re.finditer`: the list of `(start, end)` spans of the leftmost
non-overlapping matches of `m` in `cs`, in left-to-right order. -/
def finditer (m : List Char → Nat → Option Nat) (cs : List Char) :
    List (Nat × Nat) :=
  fiGo m cs (cs.length + 1) 0

/-- The pydantic `Finding` model of the source: every field is `Optional`
with default `None`. -/
structure Finding where
  prog_name : Option String := none
  incl_name : Option String := none
  types : Option String := none
  blockname : Option String := none
  starting_line : Option Int := none
  ending_line : Option Int := none
  issues_type : Option String := none
  severity : Option String := none
  message : Option String := none
  suggestion : Option String := none
  snippet : Option String := none
deriving DecidableEq, Repr

/-- The pydantic `Unit` model of the source (`Unit` shadows Lean's unit type
only inside this namespace). -/
structure Unit where
  pgm_name : String
  inc_name : String
  type : String
  name : Option String := some ""
  class_implementation : Option String := none
  start_line : Int := 0
  end_line : Int := 0
  code : Option String := some ""
  findings : Option (List Finding) := none
deriving DecidableEq, Repr

/-- The unit's source text as a character list: `src = unit.code or ""`
(`None` and `""` both yield the empty text). -/
def codeChars (u : Unit) : List Char :=
  (u.code.getD "").toList

/-- Helper `extract_line(text, pos)` of the source: the full physical line
containing offset `pos`.  The source computes
`line_start = text.rfind("\n", 0, pos) + 1` (or `0` when there is no
line break before `pos`) and `line_end = text.find("\n", pos)` (or
`len(text)` when there is none) and returns `text[line_start:line_end]`.
Equivalently, as embedded here: the characters after the last `'\n'`
strictly before `pos` (the maximal `'\n'`-free suffix of `text[0:pos]`)
followed by the characters from `pos` up to the next `'\n'` (the maximal
`'\n'`-free prefix of `text[pos:]`). -/
def extract_line (cs : List Char) (pos : Nat) : List Char :=
  ((cs.take pos).reverse.takeWhile (fun c => c != '\n')).reverse ++
    (cs.drop pos).takeWhile (fun c => c != '\n')

/-- Python `s.replace("\n", "\\n")` for a single-character needle: each
`'\n'` becomes the two characters `'\\'`, `'n'`; all others are kept. -/
def escape_nl (cs : List Char) : List Char :=
  cs.flatMap (fun c => if c = '\n' then ['\\', 'n'] else [c])

/-- Strings of `scan_unit`'s Rule 303 arm. -/
def msg303 : String := "Obsolete SET EXTENDED CHECK statement detected."

/-- Suggestion string of the Rule 303 arm. -/
def sug303 : String := "Remove the SET EXTENDED CHECK statement entirely."

/-- Message string of the Rule 304 arm. -/
def msg304 : String := "BREAK-POINT is not allowed in ABAP Cloud / Key User scenarios."

/-- Suggestion string of the Rule 304 arm. -/
def sug304 : String := "Remove or comment out the BREAK-POINT statement."

/-- `make_finding` of the source: `line_in_block` is one plus the number of
`'\n'` characters of `src` strictly before the match start
(`src.count("\n", 0, start) + 1`), the absolute start line is
`unit.start_line + line_in_block`, the end line equals the start line, and
the snippet is `extract_line(src, start)` with `'\n'` escaped.  The `end`
offset of the match is accepted and ignored, as in the source. -/
def make_finding (u : Unit) (src : List Char) (start : Nat) (_end : Nat)
    (issue message suggestion : String) : Finding :=
  let line_in_block : Int := ((src.take start).count '\n' : Int) + 1
  let abs_start : Int := u.start_line + line_in_block
  { prog_name := some u.pgm_name
    incl_name := some u.inc_name
    types := some u.type
    blockname := u.name
    starting_line := some abs_start
    ending_line := some abs_start
    issues_type := some issue
    severity := some "error"
    message := some message
    suggestion := some suggestion
    snippet := some (String.mk (escape_nl (extract_line src start))) }

/-- `scan_unit` of the source: run Rule 303's matcher, then Rule 304's, over
`src = unit.code or ""`, build one finding per match, and return a copy of
the unit whose `findings` is the collected list, or `None` when it is empty
(`fnds if fnds else None`). -/
def scan_unit (u : Unit) : Unit :=
  let src := codeChars u
  let fnds :=
    (finditer SET_EXT_CHECK_RE src).map (fun p =>
      make_finding u src p.1 p.2 "Rule303_SetExtendedCheck" msg303 sug303) ++
    (finditer BREAKPOINT_RE src).map (fun p =>
      make_finding u src p.1 p.2 "Rule304_BreakPointUsage" msg304 sug304)
  { u with findings := if fnds.isEmpty then none else some fnds }

/-- Python truthiness of the `findings` field: `None` and `[]` are falsy. -/
def findingsTruthy : Option (List Finding) → Bool
  | some (_ :: _) => true
  | _ => false

/-- The `/remediate-array` endpoint body (`scan_array`): scan each unit in
order and keep exactly those whose scanned `findings` is truthy. -/
def scan_array : List Unit → List Unit
  | [] => []
  | u :: rest =>
    let scanned := scan_unit u
    if findingsTruthy scanned.findings then scanned :: scan_array rest
    else scan_array rest

/-- The `/remediate` endpoint body (`scan_single`): scan the one unit. -/
def scan_single (u : Unit) : Unit :=
  scan_unit u

/-- A concrete well-formed unit, used to evaluate the scanner on the inputs
named by the specification's examples. -/
def exampleUnit (sl : Int) (c : String) : Unit :=
  { pgm_name := "ZPROG", inc_name := "ZINC", type := "PROG",
    start_line := sl, code := some c }

/-! ### Lemmas about the scanning loop -/

/-- If the matcher matches nowhere at or after `i`, the scan finds nothing. -/
lemma fiGo_nil (m : List Char → Nat → Option Nat) (cs : List Char) :
    ∀ fuel i, (∀ k, i ≤ k → m cs k = none) → fiGo m cs fuel i = [] := by
  intro fuel
  induction fuel with
  | zero => intro i _; rfl
  | succ f ih =>
    intro i h
    simp only [fiGo, h i le_rfl]
    split
    · exact ih (i + 1) fun k hk => h k (by omega)
    · rfl

/-- If `j` is the unique offset where the matcher matches, the scan, started
at or before `j` with enough fuel, finds exactly that one span. -/
lemma fiGo_single (m : List Char → Nat → Option Nat) (cs : List Char)
    (j e : Nat) (hm : m cs j = some e) (hu : ∀ k, k ≠ j → m cs k = none) :
    ∀ fuel i, i ≤ j → j < cs.length + 1 → cs.length + 1 ≤ fuel + i →
      fiGo m cs fuel i = [(j, e)] := by
  intro fuel
  induction fuel with
  | zero => intro i hij hjlen hfuel; omega
  | succ f ih =>
    intro i hij hjlen hfuel
    rcases eq_or_lt_of_le hij with hrfl | hlt
    · subst hrfl
      simp only [fiGo, hm]
      rw [if_pos hjlen]
      have : fiGo m cs f (max e (i + 1)) = [] :=
        fiGo_nil m cs f _ fun k hk => hu k (by omega)
      rw [this]
    · simp only [fiGo, hu i (by omega)]
      rw [if_pos (by omega)]
      exact ih (i + 1) (by omega) hjlen (by omega)

/-- `finditer` under a unique match: the result is that single span. -/
lemma finditer_of_unique (m : List Char → Nat → Option Nat) (cs : List Char)
    (j e : Nat) (hj : j ≤ cs.length) (hm : m cs j = some e)
    (hu : ∀ k, k ≠ j → m cs k = none) :
    finditer m cs = [(j, e)] :=
  fiGo_single m cs j e hm hu (cs.length + 1) 0 (Nat.zero_le j) (by omega) (by omega)

/-- `finditer` with no match anywhere: the result is empty. -/
lemma finditer_of_none (m : List Char → Nat → Option Nat) (cs : List Char)
    (h : ∀ k, m cs k = none) : finditer m cs = [] :=
  fiGo_nil m cs (cs.length + 1) 0 fun k _ => h k

/-! ### Lemmas about the matchers -/

/-- A successful nonempty literal match starts inside the text and ends at
`i + lit.length`. -/
lemma matchLit_bound {cs : List Char} {i : Nat} {lit : List Char} {e : Nat}
    (hlit : lit ≠ []) (h : matchLit cs i lit = some e) :
    i < cs.length ∧ e = i + lit.length := by
  unfold matchLit at h
  split at h
  · rename_i heq
    have hlen := congrArg List.length heq
    simp [List.length_take, List.length_drop] at hlen
    have hpos : 0 < lit.length := List.length_pos.mpr hlit
    exact ⟨by omega, (Option.some_inj.mp h).symm⟩
  · exact absurd h (by simp)

/-- A nonempty literal cannot match at or past the end of the text. -/
lemma matchLit_none_of_ge {cs : List Char} {i : Nat} {lit : List Char}
    (hlit : lit ≠ []) (hi : cs.length ≤ i) : matchLit cs i lit = none := by
  unfold matchLit
  rw [if_neg]
  intro heq
  rw [List.drop_eq_nil_of_le hi] at heq
  simp at heq
  exact hlit heq

/-- A Rule 303 match starts inside the text. -/
lemma SET_EXT_CHECK_RE_start_lt {cs : List Char} {i e : Nat}
    (h : SET_EXT_CHECK_RE cs i = some e) : i < cs.length := by
  unfold SET_EXT_CHECK_RE at h
  split at h
  · rcases h1 : matchLit cs i ['s', 'e', 't'] with _ | j1 <;> rw [h1] at h
    · exact absurd h (by simp)
    · exact (matchLit_bound (by simp) h1).1
  · exact absurd h (by simp)

/-- A Rule 304 match starts inside the text. -/
lemma BREAKPOINT_RE_start_lt {cs : List Char} {i e : Nat}
    (h : BREAKPOINT_RE cs i = some e) : i < cs.length := by
  unfold BREAKPOINT_RE at h
  split at h
  · rcases h1 : matchLit cs i ['b', 'r', 'e', 'a', 'k', '-', 'p', 'o', 'i', 'n', 't']
      with _ | j <;> rw [h1] at h
    · exact absurd h (by simp)
    · exact (matchLit_bound (by simp) h1).1
  · exact absurd h (by simp)

/-- Rule 303 cannot match at or past the end of the text. -/
lemma SET_EXT_CHECK_RE_none_of_ge {cs : List Char} {i : Nat}
    (hi : cs.length ≤ i) : SET_EXT_CHECK_RE cs i = none := by
  unfold SET_EXT_CHECK_RE
  rw [matchLit_none_of_ge (by simp) hi]
  split <;> rfl

/-- Rule 304 cannot match at or past the end of the text. -/
lemma BREAKPOINT_RE_none_of_ge {cs : List Char} {i : Nat}
    (hi : cs.length ≤ i) : BREAKPOINT_RE cs i = none := by
  unfold BREAKPOINT_RE
  rw [matchLit_none_of_ge (by simp) hi]
  split <;> rfl

/-- No-match-at-every-offset follows from no-match at the offsets inside the
text, for Rule 303. -/
lemma SET_EXT_CHECK_RE_none_all {cs : List Char} {j : Nat}
    (hu : ∀ i, i < cs.length → i ≠ j → SET_EXT_CHECK_RE cs i = none) :
    ∀ k, k ≠ j → SET_EXT_CHECK_RE cs k = none := by
  intro k hk
  by_cases hlt : k < cs.length
  · exact hu k hlt hk
  · exact SET_EXT_CHECK_RE_none_of_ge (by omega)

/-- No-match-at-every-offset follows from no-match at the offsets inside the
text, for Rule 304. -/
lemma BREAKPOINT_RE_none_all {cs : List Char} {j : Nat}
    (hu : ∀ i, i < cs.length → i ≠ j → BREAKPOINT_RE cs i = none) :
    ∀ k, k ≠ j → BREAKPOINT_RE cs k = none := by
  intro k hk
  by_cases hlt : k < cs.length
  · exact hu k hlt hk
  · exact BREAKPOINT_RE_none_of_ge (by omega)

/-- Every Rule 303 match sits between word boundaries: the pattern begins and
ends with `\b`. -/
lemma SET_EXT_CHECK_RE_boundary {cs : List Char} {i e : Nat}
    (h : SET_EXT_CHECK_RE cs i = some e) :
    boundaryAt cs i = true ∧ boundaryAt cs e = true := by
  unfold SET_EXT_CHECK_RE at h
  split at h
  case isTrue hb =>
    refine ⟨hb, ?_⟩
    rcases h1 : matchLit cs i ['s', 'e', 't'] with _ | j1 <;> rw [h1] at h
    · exact absurd h (by simp)
    · simp only at h
      split at h
      · exact absurd h (by simp)
      · rcases h2 : matchLit cs (j1 + spaceRun cs j1)
            ['e', 'x', 't', 'e', 'n', 'd', 'e', 'd'] with _ | j2 <;> rw [h2] at h
        · exact absurd h (by simp)
        · simp only at h
          split at h
          · exact absurd h (by simp)
          · rcases h3 : matchLit cs (j2 + spaceRun cs j2)
                ['c', 'h', 'e', 'c', 'k'] with _ | j3 <;> rw [h3] at h
            · exact absurd h (by simp)
            · simp only at h
              split at h
              case isTrue hb2 =>
                obtain rfl : j3 = e := Option.some_inj.mp h
                exact hb2
              case isFalse => exact absurd h (by simp)
  case isFalse => exact absurd h (by simp)

/-- Every Rule 304 match starts at a word boundary, and the keyword itself
(eleven characters) ends at a word boundary. -/
lemma BREAKPOINT_RE_boundary {cs : List Char} {i e : Nat}
    (h : BREAKPOINT_RE cs i = some e) :
    boundaryAt cs i = true ∧ boundaryAt cs (i + 11) = true := by
  unfold BREAKPOINT_RE at h
  split at h
  case isTrue hb =>
    refine ⟨hb, ?_⟩
    rcases h1 : matchLit cs i ['b', 'r', 'e', 'a', 'k', '-', 'p', 'o', 'i', 'n', 't']
        with _ | j <;> rw [h1] at h
    · exact absurd h (by simp)
    · obtain ⟨-, rfl⟩ := matchLit_bound (by simp) h1
      simp only at h
      split at h
      case isTrue hb2 => exact hb2
      case isFalse => exact absurd h (by simp)
  case isFalse => exact absurd h (by simp)

/-! ### Lemmas about snippets -/

/-- The extracted physical line never contains a line-feed character: both of
its parts are maximal `'\n'`-free runs. -/
lemma extract_line_ne_nl (cs : List Char) (pos : Nat) :
    ∀ c ∈ extract_line cs pos, c ≠ '\n' := by
  intro c hc
  unfold extract_line at hc
  rcases List.mem_append.mp hc with h | h
  · have h' := List.mem_takeWhile_imp (List.mem_reverse.mp h)
    simpa using h'
  · have h' := List.mem_takeWhile_imp h
    simpa using h'

/-- Escaping is the identity on text without line feeds. -/
lemma escape_nl_of_ne (l : List Char) (h : ∀ c ∈ l, c ≠ '\n') :
    escape_nl l = l := by
  induction l with
  | nil => rfl
  | cons a t ih =>
    simp only [escape_nl, List.flatMap_cons] at *
    rw [if_neg (h a (by simp)), List.singleton_append]
    rw [show t.flatMap (fun c => if c = '\n' then ['\\', 'n'] else [c]) = t from
      ih fun c hc => h c (by simp [hc])]

/-- The snippet of a finding is exactly the physical line at the match start:
the escaping step of the source is the identity there. -/
lemma escape_extract_line (cs : List Char) (pos : Nat) :
    escape_nl (extract_line cs pos) = extract_line cs pos :=
  escape_nl_of_ne _ (extract_line_ne_nl cs pos)

/-! ### Lemmas about `scan_unit` -/

/-- The `findings` field computed by `scan_unit`, spelled out. -/
lemma scan_unit_findings (u : Unit) :
    (scan_unit u).findings =
      (if (((finditer SET_EXT_CHECK_RE (codeChars u)).map (fun p =>
              make_finding u (codeChars u) p.1 p.2 "Rule303_SetExtendedCheck"
                msg303 sug303)) ++
            ((finditer BREAKPOINT_RE (codeChars u)).map (fun p =>
              make_finding u (codeChars u) p.1 p.2 "Rule304_BreakPointUsage"
                msg304 sug304))).isEmpty
       then none
       else some (((finditer SET_EXT_CHECK_RE (codeChars u)).map (fun p =>
              make_finding u (codeChars u) p.1 p.2 "Rule303_SetExtendedCheck"
                msg303 sug303)) ++
            ((finditer BREAKPOINT_RE (codeChars u)).map (fun p =>
              make_finding u (codeChars u) p.1 p.2 "Rule304_BreakPointUsage"
                msg304 sug304)))) := rfl

/-- Filtering keeps a mapped list whose images all satisfy the predicate. -/
lemma filter_map_true {α β : Type} (g : α → β) (p : β → Bool)
    (h : ∀ a, p (g a) = true) : ∀ l : List α, (l.map g).filter p = l.map g := by
  intro l
  induction l with
  | nil => rfl
  | cons a t ih => simp [List.filter_cons, h a, ih]

/-- Filtering drops a mapped list whose images all fail the predicate. -/
lemma filter_map_false {α β : Type} (g : α → β) (p : β → Bool)
    (h : ∀ a, p (g a) = false) : ∀ l : List α, (l.map g).filter p = [] := by
  intro l
  induction l with
  | nil => rfl
  | cons a t ih => simp [List.filter_cons, h a, ih]

/-! ### Claim theorems -/

/-- Claim C1: for every unit and every match, the finding's absolute starting
line is the unit's `start_line` plus `line_in_block`, where `line_in_block`
is one plus the number of line-break characters of the unit's code strictly
before the match's start offset; in particular the unit with
`start_line = 100` and code `"DATA: lv_x TYPE i.\nBREAK-POINT.\n"` yields
exactly one finding, with `starting_line = 102` and `ending_line = 102`. -/
theorem claim1_line_arithmetic :
    (∀ (u : Unit) (src : List Char) (s e : Nat) (iss msg sug : String),
      (make_finding u src s e iss msg sug).starting_line
        = some (u.start_line + (((src.take s).count '\n' : Int) + 1))) ∧
    ((scan_unit (exampleUnit 100 "DATA: lv_x TYPE i.\nBREAK-POINT.\n")).findings.getD
        []).map (fun f => (f.starting_line, f.ending_line))
      = [(some 102, some 102)] :=
  ⟨fun _ _ _ _ _ _ _ => rfl, by decide⟩

/-- Claim C6: `scan_unit` is deterministic — the same input yields a
structurally identical output — and it changes nothing but `findings`: the
output is the input unit with only the `findings` field replaced (the input
itself is untouched by construction in this functional embedding, matching
the copy-on-write `Unit(**unit.model_dump())` of the source). -/
theorem claim6_pure_deterministic (u : Unit) :
    scan_unit u = scan_unit u ∧
    scan_unit u = { u with findings := (scan_unit u).findings } :=
  ⟨rfl, rfl⟩

/-- Claim C9: the findings of the scanned unit do not depend on any findings
already present on the input — `scan_unit` never reads the input's
`findings` field, so pre-existing findings are discarded and replaced,
never merged. -/
theorem claim9_input_findings_ignored (u : Unit) (fs : Option (List Finding)) :
    scan_unit { u with findings := fs } = scan_unit u :=
  rfl

/-- Claim C7: a unit whose code is absent or empty scans to a unit without
findings, and scanning always returns a result (`scan_unit` is a total
function of this embedding; the nontrivial content is the empty-code
case). -/
theorem claim7_total_empty (u : Unit) (h : u.code = none ∨ u.code = some "") :
    (scan_unit u).findings = none ∧ ∃ v : Unit, scan_unit u = v := by
  refine ⟨?_, ⟨scan_unit u, rfl⟩⟩
  have hcs : codeChars u = [] := by rcases h with h | h <;> simp [codeChars, h]
  rw [scan_unit_findings, hcs]
  rfl

/-- Witness for C7 at a concrete empty-code unit. -/
theorem claim7_witness :
    ((exampleUnit 3 "").code = none ∨ (exampleUnit 3 "").code = some "") ∧
    ((scan_unit (exampleUnit 3 "")).findings = none ∧
      ∃ v : Unit, scan_unit (exampleUnit 3 "") = v) :=
  ⟨Or.inr rfl, claim7_total_empty (exampleUnit 3 "") (Or.inr rfl)⟩

/-- Claim C2: when a unit's code matches `\bSET\s+EXTENDED\s+CHECK\b`
(any letter case, any whitespace between the tokens) at exactly one offset
`j`, lying on line `k` of the unit (one plus the line breaks before `j`),
`scan_unit` produces exactly one `Rule303_SetExtendedCheck` finding, and its
absolute starting line is `start_line + k`. -/
theorem claim2_rule303_unique (u : Unit) (j e : Nat) (k : Int)
    (hm : SET_EXT_CHECK_RE (codeChars u) j = some e)
    (hu : ∀ i, i < (codeChars u).length → i ≠ j →
      SET_EXT_CHECK_RE (codeChars u) i = none)
    (hk : k = (((codeChars u).take j).count '\n' : Int) + 1) :
    ((scan_unit u).findings.getD []).filter
        (fun f => f.issues_type == some "Rule303_SetExtendedCheck")
      = [make_finding u (codeChars u) j e "Rule303_SetExtendedCheck"
          msg303 sug303] ∧
    (make_finding u (codeChars u) j e "Rule303_SetExtendedCheck"
        msg303 sug303).starting_line = some (u.start_line + k) := by
  have hj : j < (codeChars u).length := SET_EXT_CHECK_RE_start_lt hm
  have hfi : finditer SET_EXT_CHECK_RE (codeChars u) = [(j, e)] :=
    finditer_of_unique _ _ j e (le_of_lt hj) hm (SET_EXT_CHECK_RE_none_all hu)
  refine ⟨?_, by rw [hk]; rfl⟩
  rw [scan_unit_findings, hfi]
  have h304 : ∀ a : Nat × Nat,
      ((make_finding u (codeChars u) a.1 a.2 "Rule304_BreakPointUsage"
        msg304 sug304).issues_type == some "Rule303_SetExtendedCheck")
        = false := fun _ => rfl
  simp only [List.map_cons, List.map_nil, List.singleton_append,
    List.isEmpty_cons, Bool.false_eq_true, if_false, Option.getD_some,
    List.filter_cons]
  rw [filter_map_false _ _ h304]
  rfl

/-- Witness for C2: the unit with `start_line = 5` and code
`"x\nSET EXTENDED CHECK y\n"` has its unique Rule 303 match at offset 2 on
unit line 2, and the scan reports absolute line 7. -/
theorem claim2_witness :
    (SET_EXT_CHECK_RE (codeChars (exampleUnit 5 "x\nSET EXTENDED CHECK y\n")) 2
        = some 20 ∧
      (∀ i, i < (codeChars (exampleUnit 5 "x\nSET EXTENDED CHECK y\n")).length →
        i ≠ 2 →
        SET_EXT_CHECK_RE (codeChars (exampleUnit 5 "x\nSET EXTENDED CHECK y\n")) i
          = none) ∧
      (2 : Int) = (((codeChars (exampleUnit 5 "x\nSET EXTENDED CHECK y\n")).take
        2).count '\n' : Int) + 1) ∧
    (((scan_unit (exampleUnit 5 "x\nSET EXTENDED CHECK y\n")).findings.getD
          []).filter (fun f => f.issues_type == some "Rule303_SetExtendedCheck")
        = [make_finding (exampleUnit 5 "x\nSET EXTENDED CHECK y\n")
            (codeChars (exampleUnit 5 "x\nSET EXTENDED CHECK y\n")) 2 20
            "Rule303_SetExtendedCheck" msg303 sug303] ∧
      (make_finding (exampleUnit 5 "x\nSET EXTENDED CHECK y\n")
          (codeChars (exampleUnit 5 "x\nSET EXTENDED CHECK y\n")) 2 20
          "Rule303_SetExtendedCheck" msg303 sug303).starting_line
        = some ((5 : Int) + 2)) :=
  ⟨⟨by decide, by decide, by decide⟩,
    claim2_rule303_unique (exampleUnit 5 "x\nSET EXTENDED CHECK y\n") 2 20 2
      (by decide) (by decide) (by decide)⟩

/-- Claim C3: when a unit's code matches `\bBREAK-POINT\b(?:\s+\w+)?` at
exactly one offset `j`, and the trailing whitespace-plus-word token is
present (the match extends past the eleven keyword characters), `scan_unit`
produces exactly one `Rule304_BreakPointUsage` finding; its snippet is the
full physical line containing the match's start, and its reported line is
computed from the offset `j` where `BREAK-POINT` starts. -/
theorem claim3_rule304_snippet (u : Unit) (j e : Nat)
    (hm : BREAKPOINT_RE (codeChars u) j = some e)
    (_ht : j + 11 < e)
    (hu : ∀ i, i < (codeChars u).length → i ≠ j →
      BREAKPOINT_RE (codeChars u) i = none) :
    ((scan_unit u).findings.getD []).filter
        (fun f => f.issues_type == some "Rule304_BreakPointUsage")
      = [make_finding u (codeChars u) j e "Rule304_BreakPointUsage"
          msg304 sug304] ∧
    (make_finding u (codeChars u) j e "Rule304_BreakPointUsage"
        msg304 sug304).snippet
      = some (String.mk (extract_line (codeChars u) j)) ∧
    (make_finding u (codeChars u) j e "Rule304_BreakPointUsage"
        msg304 sug304).starting_line
      = some (u.start_line + ((((codeChars u).take j).count '\n' : Int) + 1)) := by
  have hj : j < (codeChars u).length := BREAKPOINT_RE_start_lt hm
  have hfi : finditer BREAKPOINT_RE (codeChars u) = [(j, e)] :=
    finditer_of_unique _ _ j e (le_of_lt hj) hm (BREAKPOINT_RE_none_all hu)
  refine ⟨?_, ?_, rfl⟩
  · rw [scan_unit_findings, hfi]
    have h303 : ∀ a : Nat × Nat,
        ((make_finding u (codeChars u) a.1 a.2 "Rule303_SetExtendedCheck"
          msg303 sug303).issues_type == some "Rule304_BreakPointUsage")
          = false := fun _ => rfl
    have hne : ¬(((finditer SET_EXT_CHECK_RE (codeChars u)).map (fun p =>
        make_finding u (codeChars u) p.1 p.2 "Rule303_SetExtendedCheck"
          msg303 sug303)) ++
        [make_finding u (codeChars u) j e "Rule304_BreakPointUsage"
          msg304 sug304]).isEmpty = true := by
      simp
    simp only [List.map_cons, List.map_nil, if_neg hne, Option.getD_some,
      List.filter_append]
    rw [filter_map_false _ _ h303]
    rfl
  · show some (String.mk (escape_nl (extract_line (codeChars u) j))) = _
    rw [escape_extract_line]

/-- Witness for C3: the unit with `start_line = 7` and code
`"x\n BREAK-POINT ID.\n"` has its unique Rule 304 match at offset 3 with the
trailing token `ID`, and the scan reports line 9 and the full physical line
as snippet. -/
theorem claim3_witness :
    (BREAKPOINT_RE (codeChars (exampleUnit 7 "x\n BREAK-POINT ID.\n")) 3
        = some 17 ∧
      3 + 11 < 17 ∧
      (∀ i, i < (codeChars (exampleUnit 7 "x\n BREAK-POINT ID.\n")).length →
        i ≠ 3 →
        BREAKPOINT_RE (codeChars (exampleUnit 7 "x\n BREAK-POINT ID.\n")) i
          = none)) ∧
    (((scan_unit (exampleUnit 7 "x\n BREAK-POINT ID.\n")).findings.getD
          []).filter (fun f => f.issues_type == some "Rule304_BreakPointUsage")
        = [make_finding (exampleUnit 7 "x\n BREAK-POINT ID.\n")
            (codeChars (exampleUnit 7 "x\n BREAK-POINT ID.\n")) 3 17
            "Rule304_BreakPointUsage" msg304 sug304] ∧
      (make_finding (exampleUnit 7 "x\n BREAK-POINT ID.\n")
          (codeChars (exampleUnit 7 "x\n BREAK-POINT ID.\n")) 3 17
          "Rule304_BreakPointUsage" msg304 sug304).snippet
        = some (String.mk (extract_line
            (codeChars (exampleUnit 7 "x\n BREAK-POINT ID.\n")) 3)) ∧
      (make_finding (exampleUnit 7 "x\n BREAK-POINT ID.\n")
          (codeChars (exampleUnit 7 "x\n BREAK-POINT ID.\n")) 3 17
          "Rule304_BreakPointUsage" msg304 sug304).starting_line
        = some ((7 : Int) +
            ((((codeChars (exampleUnit 7 "x\n BREAK-POINT ID.\n")).take 3).count
              '\n' : Int) + 1))) :=
  ⟨⟨by decide, by decide, by decide⟩,
    claim3_rule304_snippet (exampleUnit 7 "x\n BREAK-POINT ID.\n") 3 17
      (by decide) (by decide) (by decide)⟩

/-- Claim C4: matching is word-boundary-aware — every Rule 303 match begins
and ends at a word boundary, every Rule 304 match begins at a word boundary
and its keyword ends at one, and a unit whose code contains the keyword only
inside the longer identifier `XBREAK-POINTX` produces no findings at all. -/
theorem claim4_word_boundaries :
    (∀ (cs : List Char) (i e : Nat), SET_EXT_CHECK_RE cs i = some e →
      boundaryAt cs i = true ∧ boundaryAt cs e = true) ∧
    (∀ (cs : List Char) (i e : Nat), BREAKPOINT_RE cs i = some e →
      boundaryAt cs i = true ∧ boundaryAt cs (i + 11) = true) ∧
    (scan_unit (exampleUnit 1 "DATA XBREAK-POINTX.")).findings = none :=
  ⟨fun _ _ _ h => SET_EXT_CHECK_RE_boundary h,
   fun _ _ _ h => BREAKPOINT_RE_boundary h,
   by decide⟩

/-- Witness for C4: a concrete Rule 304 match, with the boundary facts the
theorem yields for it. -/
theorem claim4_witness :
    BREAKPOINT_RE ("A BREAK-POINT".toList) 2 = some 13 ∧
    (boundaryAt ("A BREAK-POINT".toList) 2 = true ∧
      boundaryAt ("A BREAK-POINT".toList) (2 + 11) = true) :=
  ⟨by decide, claim4_word_boundaries.2.1 ("A BREAK-POINT".toList) 2 13 (by decide)⟩

/-- Claim C5: when a unit's code has exactly one Rule 303 match and exactly
one Rule 304 match, on two different lines, `scan_unit` produces exactly two
findings, the Rule 303 finding first (rule-registration order), each with
its own independently computed absolute line number. -/
theorem claim5_two_rules_ordered (u : Unit) (j3 e3 j4 e4 : Nat)
    (h3 : SET_EXT_CHECK_RE (codeChars u) j3 = some e3)
    (hu3 : ∀ i, i < (codeChars u).length → i ≠ j3 →
      SET_EXT_CHECK_RE (codeChars u) i = none)
    (h4 : BREAKPOINT_RE (codeChars u) j4 = some e4)
    (hu4 : ∀ i, i < (codeChars u).length → i ≠ j4 →
      BREAKPOINT_RE (codeChars u) i = none)
    (_hl : ((codeChars u).take j3).count '\n' ≠ ((codeChars u).take j4).count '\n') :
    (scan_unit u).findings =
      some [make_finding u (codeChars u) j3 e3 "Rule303_SetExtendedCheck"
              msg303 sug303,
            make_finding u (codeChars u) j4 e4 "Rule304_BreakPointUsage"
              msg304 sug304] ∧
    (make_finding u (codeChars u) j3 e3 "Rule303_SetExtendedCheck"
        msg303 sug303).starting_line
      = some (u.start_line + ((((codeChars u).take j3).count '\n' : Int) + 1)) ∧
    (make_finding u (codeChars u) j4 e4 "Rule304_BreakPointUsage"
        msg304 sug304).starting_line
      = some (u.start_line + ((((codeChars u).take j4).count '\n' : Int) + 1)) := by
  have hfi3 : finditer SET_EXT_CHECK_RE (codeChars u) = [(j3, e3)] :=
    finditer_of_unique _ _ j3 e3 (le_of_lt (SET_EXT_CHECK_RE_start_lt h3)) h3
      (SET_EXT_CHECK_RE_none_all hu3)
  have hfi4 : finditer BREAKPOINT_RE (codeChars u) = [(j4, e4)] :=
    finditer_of_unique _ _ j4 e4 (le_of_lt (BREAKPOINT_RE_start_lt h4)) h4
      (BREAKPOINT_RE_none_all hu4)
  refine ⟨?_, rfl, rfl⟩
  rw [scan_unit_findings, hfi3, hfi4]
  rfl

/-- Witness for C5: the unit with `start_line = 50` and code
`"SET EXTENDED CHECK.\nBREAK-POINT.\n"` has its unique Rule 303 match at
offset 0 (line 51) and its unique Rule 304 match at offset 20 (line 52). -/
theorem claim5_witness :
    (SET_EXT_CHECK_RE
        (codeChars (exampleUnit 50 "SET EXTENDED CHECK.\nBREAK-POINT.\n")) 0
        = some 18 ∧
      (∀ i, i < (codeChars
          (exampleUnit 50 "SET EXTENDED CHECK.\nBREAK-POINT.\n")).length →
        i ≠ 0 →
        SET_EXT_CHECK_RE
          (codeChars (exampleUnit 50 "SET EXTENDED CHECK.\nBREAK-POINT.\n")) i
          = none) ∧
      BREAKPOINT_RE
        (codeChars (exampleUnit 50 "SET EXTENDED CHECK.\nBREAK-POINT.\n")) 20
        = some 31 ∧
      (∀ i, i < (codeChars
          (exampleUnit 50 "SET EXTENDED CHECK.\nBREAK-POINT.\n")).length →
        i ≠ 20 →
        BREAKPOINT_RE
          (codeChars (exampleUnit 50 "SET EXTENDED CHECK.\nBREAK-POINT.\n")) i
          = none) ∧
      ((codeChars (exampleUnit 50 "SET EXTENDED CHECK.\nBREAK-POINT.\n")).take
          0).count '\n'
        ≠ ((codeChars (exampleUnit 50 "SET EXTENDED CHECK.\nBREAK-POINT.\n")).take
          20).count '\n') ∧
    ((scan_unit (exampleUnit 50 "SET EXTENDED CHECK.\nBREAK-POINT.\n")).findings =
      some [make_finding (exampleUnit 50 "SET EXTENDED CHECK.\nBREAK-POINT.\n")
              (codeChars (exampleUnit 50 "SET EXTENDED CHECK.\nBREAK-POINT.\n"))
              0 18 "Rule303_SetExtendedCheck" msg303 sug303,
            make_finding (exampleUnit 50 "SET EXTENDED CHECK.\nBREAK-POINT.\n")
              (codeChars (exampleUnit 50 "SET EXTENDED CHECK.\nBREAK-POINT.\n"))
              20 31 "Rule304_BreakPointUsage" msg304 sug304] ∧
      (make_finding (exampleUnit 50 "SET EXTENDED CHECK.\nBREAK-POINT.\n")
          (codeChars (exampleUnit 50 "SET EXTENDED CHECK.\nBREAK-POINT.\n"))
          0 18 "Rule303_SetExtendedCheck" msg303 sug303).starting_line
        = some ((50 : Int) +
            ((((codeChars (exampleUnit 50 "SET EXTENDED CHECK.\nBREAK-POINT.\n")).take
              0).count '\n' : Int) + 1)) ∧
      (make_finding (exampleUnit 50 "SET EXTENDED CHECK.\nBREAK-POINT.\n")
          (codeChars (exampleUnit 50 "SET EXTENDED CHECK.\nBREAK-POINT.\n"))
          20 31 "Rule304_BreakPointUsage" msg304 sug304).starting_line
        = some ((50 : Int) +
            ((((codeChars (exampleUnit 50 "SET EXTENDED CHECK.\nBREAK-POINT.\n")).take
              20).count '\n' : Int) + 1))) :=
  ⟨⟨by decide, by decide, by decide, by decide, by decide⟩,
    claim5_two_rules_ordered (exampleUnit 50 "SET EXTENDED CHECK.\nBREAK-POINT.\n")
      0 18 20 31 (by decide) (by decide) (by decide) (by decide) (by decide)⟩

/-- Claim C8: `scan_array` (the batch endpoint) applies `scan_unit` to each
element and keeps, in input order, exactly the scanned units whose findings
are non-empty (Python truthiness); `scan_single` returns the scanned unit
itself, findings-less (`findings = none`) rather than omitted when nothing
matched. -/
theorem claim8_scan_many :
    (∀ units : List Unit, scan_array units
      = (units.map scan_unit).filter (fun v => findingsTruthy v.findings)) ∧
    (∀ u : Unit, scan_single u = scan_unit u) ∧
    (∀ u : Unit, (scan_unit u).findings = none →
      scan_array [u] = [] ∧ (scan_single u).findings = none) := by
  refine ⟨?_, fun _ => rfl, fun u h => ⟨?_, ?_⟩⟩
  · intro units
    induction units with
    | nil => rfl
    | cons u rest ih =>
      by_cases h : findingsTruthy (scan_unit u).findings
      · simp [scan_array, List.filter_cons, h, ih]
      · simp only [Bool.not_eq_true] at h
        simp [scan_array, List.filter_cons, h, ih]
  · simp [scan_array, h, findingsTruthy]
  · simpa [scan_single] using h

/-- Witness for C8: the third conjunct applied to a concrete unit with empty
code, which scans to no findings. -/
theorem claim8_witness :
    (scan_unit (exampleUnit 1 "")).findings = none ∧
    (scan_array [exampleUnit 1 ""] = [] ∧
      (scan_single (exampleUnit 1 "")).findings = none) :=
  ⟨by decide, claim8_scan_many.2.2 (exampleUnit 1 "") (by decide)⟩

/-- Claim C10: only the line-feed character is a line break for the core —
escaping rewrites only `'\n'` (it is the identity on line-feed-free text),
the extracted snippet line never contains a `'\n'` (its boundaries are
found only at `'\n'` characters), and for a unit whose code separates lines
with carriage returns the reported line number does not advance and the
snippet retains the raw `'\r'` characters. -/
theorem claim10_only_lf :
    (∀ l : List Char, (∀ c ∈ l, c ≠ '\n') → escape_nl l = l) ∧
    (∀ (cs : List Char) (pos : Nat), ∀ c ∈ extract_line cs pos, c ≠ '\n') ∧
    ((scan_unit (exampleUnit 10 "A\rBREAK-POINT.\r")).findings.getD []).map
        (fun f => (f.starting_line, f.snippet))
      = [(some 11, some "A\rBREAK-POINT.\r")] :=
  ⟨escape_nl_of_ne, fun cs pos => extract_line_ne_nl cs pos, by decide⟩

/-- Witness for C10: escaping leaves concrete line-feed-free text (with a
carriage return) unchanged. -/
theorem claim10_witness :
    (∀ c ∈ ['a', '\r'], c ≠ '\n') ∧ escape_nl ['a', '\r'] = ['a', '\r'] :=
  ⟨by decide, claim10_only_lf.1 ['a', '\r'] (by decide)⟩

end DbRule
